import Mathlib

/-!
Verification of the overscape-server tile/feature pipeline (`app/overpass.py`).

The Python source is shallowly embedded below:

* `num2deg` / `tile_bbox_from_x_y` (tile math) are modelled over `ℝ`,
  with `math.degrees r = r * (180 / π)`.
* `OverpassClient._execute_query` is modelled as a function over an abstract
  HTTP outcome (connection error / timeout / response with a status code and
  an already-parsed body).
* The feature transformation (`OverpassResponse._item_to_soundscape_geojson`,
  `_compute_intersections`, `as_soundscape_geojson`) is modelled over geometry
  records as produced by the osm2geojson collaborator: an id, a geometry and a
  tag mapping.  Tag mappings and the Python insertion-ordered dicts are
  modelled as association lists; coordinates (Python floats compared bitwise)
  are modelled as pairs of rationals with decidable equality.
* The taxonomy `PRIMARY_TAGS` (loaded from a JSON data file) is passed as an
  explicit association-list parameter.

Python code that raises (the `[...][0]` indexing in
`_item_to_soundscape_geojson`) is modelled with `Option`, `none` standing for
the raised exception.
-/

namespace Overscape

/-! ## Tile math (`num2deg`, `tile_bbox_from_x_y`) -/

def ZOOM_DEFAULT : ℕ := 16

/-- `num2deg(xtile, ytile, zoom)` from `app/overpass.py`.  Note that the
Python function returns the pair `(lat_deg, lon_deg)`: latitude first. -/
noncomputable def num2deg (xtile ytile : ℤ) (zoom : ℕ) : ℝ × ℝ :=
  let n : ℝ := 2 ^ zoom
  let lon_deg : ℝ := (xtile : ℝ) / n * 360 - 180
  let lat_rad : ℝ := Real.arctan (Real.sinh (Real.pi * (1 - 2 * (ytile : ℝ) / n)))
  (lat_rad * (180 / Real.pi), lon_deg)

/-- `tile_bbox_from_x_y(x, y, zoom)` from `app/overpass.py`. -/
noncomputable def tile_bbox_from_x_y (x y : ℤ) (zoom : ℕ) : ℝ × ℝ × ℝ × ℝ :=
  let a := num2deg x y zoom
  let b := num2deg (x + 1) (y + 1) zoom
  (min a.1 b.1, min a.2 b.2, max a.1 b.1, max a.2 b.2)

/-- The spec's longitude formula `lonDeg = x / 2^zoom * 360 - 180`. -/
noncomputable def specLonDeg (x : ℤ) (zoom : ℕ) : ℝ :=
  (x : ℝ) / 2 ^ zoom * 360 - 180

/-- The spec's latitude formula
`latDeg = degrees(atan(sinh(pi * (1 - 2*y/2^zoom))))`. -/
noncomputable def specLatDeg (y : ℤ) (zoom : ℕ) : ℝ :=
  Real.arctan (Real.sinh (Real.pi * (1 - 2 * (y : ℝ) / 2 ^ zoom))) * (180 / Real.pi)

/-! ## Query executor (`OverpassClient._execute_query`) -/

/-- Outcome of the HTTP GET issued by `_execute_query`: the `requests` call
either raises a connection error, raises a timeout, or yields a response
carrying a status code and a body (the body is kept abstract, already
parsed). -/
inductive HTTPResult (β : Type) where
  | connectionError : HTTPResult β
  | timeout : HTTPResult β
  | response (status_code : ℕ) (body : β) : HTTPResult β
deriving DecidableEq

/-- The value `OverpassResponse(response.json())` wraps: the parsed body. -/
structure OverpassResponseData (β : Type) where
  overpass_json : β
deriving DecidableEq

/-- `OverpassClient._execute_query` from `app/overpass.py`: `none` on a
connection error or timeout, `none` on a status code other than 200,
otherwise the wrapped body. -/
def execute_query {β : Type} : HTTPResult β → Option (OverpassResponseData β)
  | .connectionError => none
  | .timeout => none
  | .response status_code body =>
    if status_code ≠ 200 then none else some ⟨body⟩

/-! ## Geometry records and features (`OverpassResponse`) -/

/-- A coordinate pair `(lon, lat)`.  Python floats compared bitwise are
modelled as rationals with decidable equality. -/
abbrev Coord : Type := ℚ × ℚ

/-- A GeoJSON geometry as produced by the osm2geojson collaborator and by
shapely's `mapping`. -/
inductive Geometry where
  | point (coordinates : Coord) : Geometry
  | lineString (coordinates : List Coord) : Geometry
  | polygon (coordinates : List (List Coord)) : Geometry
  | multiPolygon (coordinates : List (List (List Coord))) : Geometry
deriving DecidableEq

/-- Geometry-type test corresponding to `geom_type == "LineString"` being a
`Point`. -/
def Geometry.isPoint : Geometry → Bool
  | .point _ => true
  | _ => false

/-- One record of the osm2geojson output (`item["properties"]["id"]`,
`item["geometry"]` / `item["shape"]`, `item["properties"]["tags"]`); the tag
dict is an insertion-ordered association list. -/
structure GeometryRecord where
  id : ℤ
  geometry : Geometry
  tags : List (String × String)
deriving DecidableEq

/-- One feature of the Soundscape GeoJSON output schema. -/
structure Feature where
  feature_type : String
  feature_value : String
  geometry : Geometry
  osm_ids : List ℤ
  properties : List (String × String)
  type : String
deriving DecidableEq

/-- The output collection of `as_soundscape_geojson`. -/
structure FeatureCollection where
  features : List Feature
  type : String
deriving DecidableEq

/-- `OverpassResponse._item_to_soundscape_geojson` from `app/overpass.py`.
The Python list comprehension
`[(k, v) for (k, v) in item["properties"]["tags"].items() if k in PRIMARY_TAGS][0]`
takes the first tag whose key occurs in `PRIMARY_TAGS` and raises `IndexError`
when there is none; the raise is modelled as `none`. -/
def item_to_soundscape_geojson (primary_tags : List (String × List String))
    (item : GeometryRecord) : Option Feature :=
  match item.tags.find? (fun kv => (primary_tags.map (·.1)).contains kv.1) with
  | some kv =>
    some { feature_type := kv.1
           feature_value := kv.2
           geometry := item.geometry
           osm_ids := [item.id]
           properties := item.tags
           type := "Feature" }
  | none => none

/-- `list(self._item_to_soundscape_geojson(item) for item in ...)`: the eager
list of per-record features; `none` when any record raises. -/
def toFeatures (primary_tags : List (String × List String)) :
    List GeometryRecord → Option (List Feature)
  | [] => some []
  | item :: rest =>
    match item_to_soundscape_geojson primary_tags item, toFeatures primary_tags rest with
    | some f, some fs => some (f :: fs)
    | _, _ => none

/-- `"highway" in item["properties"]["tags"]`. -/
def hasHighway (tags : List (String × String)) : Bool :=
  tags.any (fun kv => kv.1 == "highway")

/-- The stream of `(point, id)` pairs one record contributes to the
intersection scan: its coordinates when it is a `LineString` tagged
`highway`, nothing otherwise. -/
def recordPoints (item : GeometryRecord) : List (Coord × ℤ) :=
  match item.geometry with
  | .lineString cs =>
    if hasHighway item.tags then cs.map (fun c => (c, item.id)) else []
  | _ => []

/-- All `(point, id)` pairs of a record list, in iteration order. -/
def allPoints : List GeometryRecord → List (Coord × ℤ)
  | [] => []
  | item :: rest => recordPoints item ++ allPoints rest

/-- `point_to_osm_ids.setdefault(point, []).append(id)` on a Python
insertion-ordered dict, modelled on an association list: append the id to the
existing entry for the point, or add a new entry at the end. -/
def insertPoint : List (Coord × List ℤ) → Coord → ℤ → List (Coord × List ℤ)
  | [], p, i => [(p, [i])]
  | e :: rest, p, i =>
    if e.1 = p then (e.1, e.2 ++ [i]) :: rest else e :: insertPoint rest p i

/-- Fold `insertPoint` over a stream of `(point, id)` pairs. -/
def insertAll : List (Coord × List ℤ) → List (Coord × ℤ) → List (Coord × List ℤ)
  | m, [] => m
  | m, e :: rest => insertAll (insertPoint m e.1 e.2) rest

/-- The `point_to_osm_ids` dict of `_compute_intersections` after the scan
over `self.shapes_json`. -/
def point_to_osm_ids (records : List GeometryRecord) : List (Coord × List ℤ) :=
  insertAll [] (allPoints records)

/-- The feature yielded by `_compute_intersections` for one dict entry with
more than one collected id. -/
def intersectionOf (e : Coord × List ℤ) : Option Feature :=
  if 1 < e.2.length then
    some { feature_type := "highway"
           feature_value := "gd_intersection"
           geometry := .point e.1
           osm_ids := e.2
           properties := []
           type := "Feature" }
  else none

/-- `OverpassResponse._compute_intersections` from `app/overpass.py`
(the generator materialized as a list, in dict iteration order). -/
def compute_intersections (records : List GeometryRecord) : List Feature :=
  (point_to_osm_ids records).filterMap intersectionOf

/-- `OverpassResponse.as_soundscape_geojson` from `app/overpass.py`:
per-record features first, then intersection features; `none` when the
per-record transformation raises. -/
def as_soundscape_geojson (primary_tags : List (String × List String))
    (records : List GeometryRecord) : Option FeatureCollection :=
  match toFeatures primary_tags records with
  | some fs =>
    some { features := fs ++ compute_intersections records
           type := "FeatureCollection" }
  | none => none

/-! ## Query builder (`OverpassClient._build_query`) -/

/-- The tag-predicate block built by the `for tag, values in
PRIMARY_TAGS.items()` loop of `_build_query`:
`q += "nwr[{tag}~\x27{\x27|\x27.join(values)}\x27];\n"` for an entry with
values, `q += "nwr[{tag}];\n"` otherwise. -/
def build_predicates (primary_tags : List (String × List String)) : String :=
  primary_tags.foldl
    (fun q e =>
      if e.2.length > 0 then
        q ++ ("nwr[" ++ e.1 ++ "~\x27" ++ String.intercalate "|" e.2 ++ "\x27];\n")
      else
        q ++ ("nwr[" ++ e.1 ++ "];\n"))
    ""

/-- `OverpassClient._build_query` from `app/overpass.py`.  The rendering of a
float into the query text (Python f-string interpolation) is kept abstract as
`fmt`; everything else is the literal query text. -/
noncomputable def build_query (fmt : ℝ → String)
    (primary_tags : List (String × List String)) (x y : ℤ) : String :=
  let t := tile_bbox_from_x_y x y ZOOM_DEFAULT
  "[out:json][bbox:" ++ fmt t.1 ++ "," ++ fmt t.2.1 ++ "," ++ fmt t.2.2.1
    ++ "," ++ fmt t.2.2.2 ++ "];\n        (\n            "
    ++ build_predicates primary_tags ++ "\n        );\n        out geom;"

/-- The spec's per-entry predicate: `nwr[key]` for an empty allowed-value set,
`nwr[key~\x27v1|...|vn\x27]` (an alternation over the allowed values)
otherwise. -/
def specPredicate (e : String × List String) : String :=
  if e.2 = [] then "nwr[" ++ e.1 ++ "];\n"
  else "nwr[" ++ e.1 ++ "~\x27" ++ String.intercalate "|" e.2 ++ "\x27];\n"

/-- The spec's union of predicates: one predicate per taxonomy entry, in
taxonomy iteration order. -/
def specUnion : List (String × List String) → String
  | [] => ""
  | e :: rest => specPredicate e ++ specUnion rest

/-! ## Spec-side description of the intersection scan -/

/-- The intersection feature the spec describes for a point `p`:
`featureType="highway"`, `featureValue="gd_intersection"`, a `Point`
geometry at `p`, the contributing ids, empty properties. -/
def mkIntersectionFeature (p : Coord) (oids : List ℤ) : Feature :=
  { feature_type := "highway"
    feature_value := "gd_intersection"
    geometry := .point p
    osm_ids := oids
    properties := []
    type := "Feature" }

/-- The spec's "ordered list of record ids that contain that point": for every
record whose geometry type is LineString and whose tags include the key
`"highway"`, one occurrence of the record id per occurrence of the point among
its coordinates, in record order. -/
def specContributingIds : List GeometryRecord → Coord → List ℤ
  | [], _ => []
  | item :: rest, p =>
    (match item.geometry with
     | .lineString cs =>
       if hasHighway item.tags then
         (cs.filter (fun c => decide (c = p))).map (fun _ => item.id)
       else []
     | _ => []) ++ specContributingIds rest p

/-! ## Association-list lemmas for the point dict -/

/-- The value stored under key `p` (first matching entry), `[]` when the key
is absent. -/
def valsAt (p : Coord) : List (Coord × List ℤ) → List ℤ
  | [] => []
  | e :: rest => if e.1 = p then e.2 else valsAt p rest

/-- The keys of the association list, in order. -/
def keysOf (m : List (Coord × List ℤ)) : List Coord := m.map (·.1)

theorem valsAt_insertPoint (p q : Coord) (i : ℤ) (m : List (Coord × List ℤ)) :
    valsAt p (insertPoint m q i)
      = if q = p then valsAt p m ++ [i] else valsAt p m := by
  induction m with
  | nil => by_cases h : q = p <;> simp [insertPoint, valsAt, h]
  | cons e rest ih =>
    by_cases h1 : e.1 = q
    · by_cases h2 : q = p
      · subst h2
        simp [insertPoint, valsAt, h1]
      · simp [insertPoint, valsAt, h1, h2]
    · by_cases h3 : e.1 = p
      · have h2 : ¬q = p := fun hq => h1 (h3.trans hq.symm)
        have h2s : ¬p = q := fun hq => h2 hq.symm
        simp [insertPoint, valsAt, h1, h3, h2, h2s]
      · simp [insertPoint, valsAt, h1, h3, ih]

theorem valsAt_insertAll (p : Coord) (l : List (Coord × ℤ)) :
    ∀ m, valsAt p (insertAll m l)
      = valsAt p m ++ (l.filter (fun e => decide (e.1 = p))).map (·.2) := by
  induction l with
  | nil => intro m; simp [insertAll]
  | cons e rest ih =>
    intro m
    rw [insertAll, ih, valsAt_insertPoint]
    by_cases h : e.1 = p <;> simp [h, List.filter_cons]

theorem valsAt_point_to_osm_ids (records : List GeometryRecord) (p : Coord) :
    valsAt p (point_to_osm_ids records)
      = ((allPoints records).filter (fun e => decide (e.1 = p))).map (·.2) := by
  rw [point_to_osm_ids, valsAt_insertAll]
  simp [valsAt]

theorem specContributingIds_eq (records : List GeometryRecord) (p : Coord) :
    specContributingIds records p = valsAt p (point_to_osm_ids records) := by
  rw [valsAt_point_to_osm_ids]
  induction records with
  | nil => simp [specContributingIds, allPoints]
  | cons item rest ih =>
    rw [specContributingIds, allPoints, List.filter_append, List.map_append, ih]
    congr 1
    obtain ⟨iid, geom, tags⟩ := item
    cases geom <;> simp only [recordPoints]
    case lineString cs =>
      by_cases hh : hasHighway tags <;>
        simp [hh, List.filter_map, List.map_map, Function.comp_def]
    all_goals simp

theorem keysOf_insertPoint (m : List (Coord × List ℤ)) (q : Coord) (i : ℤ) :
    keysOf (insertPoint m q i)
      = if q ∈ keysOf m then keysOf m else keysOf m ++ [q] := by
  induction m with
  | nil => simp [insertPoint, keysOf]
  | cons e rest ih =>
    by_cases h1 : e.1 = q
    · simp [insertPoint, keysOf, h1]
    · have h1s : ¬q = e.1 := fun h => h1 h.symm
      by_cases h2 : q ∈ keysOf rest
      · simp only [keysOf] at ih h2 ⊢
        simp [insertPoint, h1, h1s, h2, ih]
      · simp only [keysOf] at ih h2 ⊢
        simp [insertPoint, h1, h1s, h2, ih]

theorem nodup_keysOf_insertPoint (m : List (Coord × List ℤ)) (q : Coord) (i : ℤ)
    (h : (keysOf m).Nodup) : (keysOf (insertPoint m q i)).Nodup := by
  rw [keysOf_insertPoint]
  by_cases hq : q ∈ keysOf m
  · simpa [hq] using h
  · simp only [hq, if_false]
    simpa [List.nodup_append, hq] using h

theorem nodup_keysOf_insertAll (l : List (Coord × ℤ)) :
    ∀ m, (keysOf m).Nodup → (keysOf (insertAll m l)).Nodup := by
  induction l with
  | nil => intro m hm; simpa [insertAll] using hm
  | cons e rest ih =>
    intro m hm
    rw [insertAll]
    exact ih _ (nodup_keysOf_insertPoint m e.1 e.2 hm)

theorem nodup_keysOf_point_to_osm_ids (records : List GeometryRecord) :
    (keysOf (point_to_osm_ids records)).Nodup :=
  nodup_keysOf_insertAll (allPoints records) [] (by simp [keysOf])

theorem valsAt_eq_of_mem (m : List (Coord × List ℤ)) (e : Coord × List ℤ)
    (hnd : (keysOf m).Nodup) (he : e ∈ m) : valsAt e.1 m = e.2 := by
  induction m with
  | nil => cases he
  | cons a rest ih =>
    rcases List.mem_cons.1 he with h | h
    · subst h
      simp [valsAt]
    · have h1 : e.1 ∈ keysOf rest := List.mem_map_of_mem (·.1) h
      have h2 : ¬a.1 = e.1 := by
        intro hcontra
        rw [keysOf, List.map_cons, List.nodup_cons] at hnd
        exact hnd.1 (hcontra ▸ h1)
      rw [valsAt, if_neg h2]
      have hnd' : (keysOf rest).Nodup := by
        simp only [keysOf, List.map_cons, List.nodup_cons] at hnd
        exact hnd.2
      exact ih hnd' h

/-- Entries whose key is not `p` yield no feature at the point `p`. -/
theorem filter_point_filterMap_notMem (m : List (Coord × List ℤ)) (p : Coord)
    (h : p ∉ keysOf m) :
    ((m.filterMap intersectionOf).filter
      (fun f => decide (f.geometry = Geometry.point p))) = [] := by
  induction m with
  | nil => simp
  | cons e rest ih =>
    have h1 : ¬e.1 = p := by
      intro hc
      exact h (by simp [keysOf, hc])
    have h2 : p ∉ keysOf rest := by
      intro hc
      exact h (by simp [keysOf] at hc ⊢; exact Or.inr hc)
    by_cases hlen : 1 < e.2.length <;>
      simp [List.filterMap_cons, intersectionOf, hlen, List.filter_cons, h1, ih h2]

/-- The features of the intersection dict restricted to one point `p`:
exactly one feature when the ids collected at `p` number more than one,
nothing otherwise. -/
theorem filter_point_filterMap (m : List (Coord × List ℤ)) (p : Coord)
    (hnd : (keysOf m).Nodup) :
    ((m.filterMap intersectionOf).filter
      (fun f => decide (f.geometry = Geometry.point p)))
      = if 1 < (valsAt p m).length
        then [mkIntersectionFeature p (valsAt p m)] else [] := by
  induction m with
  | nil => simp [valsAt]
  | cons e rest ih =>
    have hnd' : (keysOf rest).Nodup ∧ e.1 ∉ keysOf rest := by
      rw [keysOf, List.map_cons, List.nodup_cons] at hnd
      exact ⟨hnd.2, hnd.1⟩
    by_cases hp : e.1 = p
    · have hrest : p ∉ keysOf rest := hp ▸ hnd'.2
      by_cases hlen : 1 < e.2.length <;>
        simp [List.filterMap_cons, intersectionOf, hlen, List.filter_cons, hp,
          valsAt, filter_point_filterMap_notMem rest p hrest,
          mkIntersectionFeature]
    · by_cases hlen : 1 < e.2.length <;>
        simp [List.filterMap_cons, intersectionOf, hlen, List.filter_cons, hp,
          valsAt, ih hnd'.1]

/-- Every feature yielded by the intersection dict has a `Point` geometry. -/
theorem all_isPoint_filterMap (m : List (Coord × List ℤ)) :
    (m.filterMap intersectionOf).all (fun f => f.geometry.isPoint) = true := by
  simp only [List.all_eq_true]
  intro f hf
  obtain ⟨e, he, hfe⟩ := List.mem_filterMap.1 hf
  rw [intersectionOf] at hfe
  by_cases hlen : 1 < e.2.length
  · rw [if_pos hlen] at hfe
    rw [← Option.some.inj hfe]
    rfl
  · rw [if_neg hlen] at hfe
    cases hfe

/-! ## Lemmas about the per-record feature list -/

theorem osm_ids_of_item_to (primary_tags : List (String × List String))
    (item : GeometryRecord) (f : Feature)
    (h : item_to_soundscape_geojson primary_tags item = some f) :
    f.osm_ids = [item.id] := by
  rw [item_to_soundscape_geojson] at h
  cases hfind : item.tags.find? (fun kv => (primary_tags.map (·.1)).contains kv.1) with
  | none => rw [hfind] at h; cases h
  | some kv =>
    rw [hfind] at h
    rw [← Option.some.inj h]

theorem toFeatures_map_osm_ids (primary_tags : List (String × List String))
    (records : List GeometryRecord) (fs : List Feature)
    (h : toFeatures primary_tags records = some fs) :
    fs.map (·.osm_ids) = records.map (fun r => [r.id]) := by
  induction records generalizing fs with
  | nil =>
    rw [toFeatures] at h
    rw [← Option.some.inj h]
    rfl
  | cons item rest ih =>
    rw [toFeatures] at h
    cases h1 : item_to_soundscape_geojson primary_tags item with
    | none => rw [h1] at h; cases h
    | some f =>
      cases h2 : toFeatures primary_tags rest with
      | none => rw [h1, h2] at h; cases h
      | some fs' =>
        rw [h1, h2] at h
        rw [← Option.some.inj h]
        simp only [List.map_cons]
        rw [osm_ids_of_item_to primary_tags item f h1, ih fs' h2]

theorem toFeatures_eq_none_of_mem (primary_tags : List (String × List String))
    (records : List GeometryRecord) (r : GeometryRecord)
    (hr : r ∈ records)
    (h0 : item_to_soundscape_geojson primary_tags r = none) :
    toFeatures primary_tags records = none := by
  induction records with
  | nil => cases hr
  | cons item rest ih =>
    rcases List.mem_cons.1 hr with h | h
    · subst h
      rw [toFeatures, h0]
    · rw [toFeatures, ih h]
      cases item_to_soundscape_geojson primary_tags item <;> rfl

/-- A record only ever contributes its own id to the point scan. -/
theorem snd_of_mem_recordPoints (item : GeometryRecord) (x : Coord × ℤ)
    (hx : x ∈ recordPoints item) : x.2 = item.id := by
  obtain ⟨iid, geom, tags⟩ := item
  cases geom <;> simp only [recordPoints] at hx <;>
    try exact absurd hx (List.not_mem_nil x)
  case lineString cs =>
    by_cases hh : hasHighway tags = true
    · rw [if_pos hh] at hx
      obtain ⟨c, _, hc⟩ := List.mem_map.1 hx
      rw [← hc]
    · rw [if_neg hh] at hx
      exact absurd hx (List.not_mem_nil x)

/-- Every id collected in the point dict is the id of some record. -/
theorem snd_mem_ids_of_mem_allPoints (records : List GeometryRecord)
    (x : Coord × ℤ) (hx : x ∈ allPoints records) :
    x.2 ∈ records.map (·.id) := by
  induction records with
  | nil => cases hx
  | cons item rest ih =>
    rw [allPoints] at hx
    rcases List.mem_append.1 hx with h | h
    · rw [List.map_cons, snd_of_mem_recordPoints item x h]
      exact List.mem_cons_self _ _
    · exact List.mem_cons_of_mem _ (ih h)

/-! ## Lemmas about the query text -/

theorem code_pred_eq (s : String) (e : String × List String) :
    (if e.2.length > 0 then
      s ++ ("nwr[" ++ e.1 ++ "~\x27" ++ String.intercalate "|" e.2 ++ "\x27];\n")
    else
      s ++ ("nwr[" ++ e.1 ++ "];\n"))
      = s ++ specPredicate e := by
  rcases e with ⟨k, vs⟩
  cases vs <;> simp [specPredicate]

theorem foldl_predicates (l : List (String × List String)) :
    ∀ s : String,
      l.foldl
        (fun q e =>
          if e.2.length > 0 then
            q ++ ("nwr[" ++ e.1 ++ "~\x27" ++ String.intercalate "|" e.2 ++ "\x27];\n")
          else
            q ++ ("nwr[" ++ e.1 ++ "];\n"))
        s
      = s ++ specUnion l := by
  induction l with
  | nil => intro s; simp [specUnion]
  | cons e rest ih =>
    intro s
    rw [List.foldl_cons, ih]
    show (if e.2.length > 0 then
        s ++ ("nwr[" ++ e.1 ++ "~\x27" ++ String.intercalate "|" e.2 ++ "\x27];\n")
      else
        s ++ ("nwr[" ++ e.1 ++ "];\n")) ++ specUnion rest = _
    rw [code_pred_eq, specUnion, String.append_assoc]

theorem build_predicates_eq (l : List (String × List String)) :
    build_predicates l = specUnion l := by
  rw [build_predicates, foldl_predicates, String.empty_append]

/-- The per-record features match the record ids one for one, so counting
features with a given singleton id list counts records with that id. -/
theorem filter_osm_ids_length (primary_tags : List (String × List String))
    (records : List GeometryRecord) (fs : List Feature) (i : ℤ)
    (h : toFeatures primary_tags records = some fs) :
    (fs.filter (fun g => decide (g.osm_ids = [i]))).length
      = (records.filter (fun r => decide (r.id = i))).length := by
  induction records generalizing fs with
  | nil =>
    rw [toFeatures] at h
    rw [← Option.some.inj h]
    rfl
  | cons item rest ih =>
    rw [toFeatures] at h
    cases h1 : item_to_soundscape_geojson primary_tags item with
    | none => rw [h1] at h; cases h
    | some f =>
      cases h2 : toFeatures primary_tags rest with
      | none => rw [h1, h2] at h; cases h
      | some fs' =>
        rw [h1, h2] at h
        rw [← Option.some.inj h, List.filter_cons, List.filter_cons]
        have hids : (decide (f.osm_ids = [i])) = (decide (item.id = i)) := by
          rw [osm_ids_of_item_to primary_tags item f h1]
          simp
        rw [hids]
        by_cases hc : item.id = i <;> simp [hc, ih fs' h2]

/-- With pairwise-distinct record ids, exactly one record carries a given id
occurring among them. -/
theorem length_filter_id_eq_one (records : List GeometryRecord) (i : ℤ)
    (hnd : (records.map (·.id)).Nodup) (hid : i ∈ records.map (·.id)) :
    (records.filter (fun r => decide (r.id = i))).length = 1 := by
  induction records with
  | nil => cases hid
  | cons item rest ih =>
    rw [List.map_cons, List.nodup_cons] at hnd
    rw [List.filter_cons]
    by_cases hc : item.id = i
    · have hrest : rest.filter (fun r => decide (r.id = i)) = [] := by
        rw [List.filter_eq_nil_iff]
        intro r hr hcontra
        simp only [decide_eq_true_eq] at hcontra
        exact hnd.1 (hc ▸ hcontra ▸ List.mem_map_of_mem (·.id) hr)
      simp [hc, hrest]
    · have hid2 : i ∈ item.id :: rest.map (·.id) := by
        rw [List.map_cons] at hid
        exact hid
      rcases List.mem_cons.1 hid2 with h | h
      · exact absurd h.symm hc
      · simp [hc, ih hnd.2 h]

/-- `tile_bbox_from_x_y` written out: component-wise min/max of the two
corners returned by `num2deg`, which are `(lat, lon)` pairs. -/
theorem tile_bbox_eq_minmax (x y : ℤ) (zoom : ℕ) :
    tile_bbox_from_x_y x y zoom =
      (min (specLatDeg y zoom) (specLatDeg (y + 1) zoom),
       min (specLonDeg x zoom) (specLonDeg (x + 1) zoom),
       max (specLatDeg y zoom) (specLatDeg (y + 1) zoom),
       max (specLonDeg x zoom) (specLonDeg (x + 1) zoom)) := rfl

/-! ## Claim theorems -/

/-- C9: for all tiles `(x, y)` and zoom, the bounding box returned by
`tile_bbox_from_x_y` satisfies first component ≤ third component and second
component ≤ fourth component. -/
theorem tile_bbox_ordered (x y : ℤ) (zoom : ℕ) :
    (tile_bbox_from_x_y x y zoom).1 ≤ (tile_bbox_from_x_y x y zoom).2.2.1 ∧
    (tile_bbox_from_x_y x y zoom).2.1 ≤ (tile_bbox_from_x_y x y zoom).2.2.2 :=
  ⟨min_le_max, min_le_max⟩

/-- C1 counterexample: at tile `(10, 0)` with zoom 1 the first component of
`tile_bbox_from_x_y` is NOT the minimum of the two corner longitudes
(`x / 2^zoom * 360 - 180` at `x` and `x + 1`), contradicting the claimed
`(minLon, minLat, maxLon, maxLat)` order. -/
theorem tile_bbox_first_component_not_min_lon :
    (tile_bbox_from_x_y 10 0 1).1 ≠ min (specLonDeg 10 1) (specLonDeg 11 1) := by
  have hfirst : (tile_bbox_from_x_y 10 0 1).1 ≤ specLatDeg 1 1 := by
    rw [tile_bbox_eq_minmax]
    exact min_le_right _ _
  have hlat : specLatDeg 1 1 = 0 := by
    rw [specLatDeg]
    norm_num
  have hlon : min (specLonDeg 10 1) (specLonDeg 11 1) = 1620 := by
    rw [specLonDeg, specLonDeg]
    norm_num [min_def]
  intro h
  rw [h, hlon, hlat] at hfirst
  norm_num at hfirst

/-- C1 (amended): `tile_bbox_from_x_y` returns the tuple
`(minLat, minLon, maxLat, maxLon)`: the first and third components are the
min and max of the two corner latitudes
`degrees(atan(sinh(pi * (1 - 2*y/2^zoom))))` at `y` and `y + 1`, the second
and fourth the min and max of the two corner longitudes
`x / 2^zoom * 360 - 180` at `x` and `x + 1` (`num2deg` returns latitude
first). -/
theorem tile_bbox_components (x y : ℤ) (zoom : ℕ) :
    tile_bbox_from_x_y x y zoom =
      (min (specLatDeg y zoom) (specLatDeg (y + 1) zoom),
       min (specLonDeg x zoom) (specLonDeg (x + 1) zoom),
       max (specLatDeg y zoom) (specLatDeg (y + 1) zoom),
       max (specLonDeg x zoom) (specLonDeg (x + 1) zoom)) :=
  tile_bbox_eq_minmax x y zoom

/-- C2 counterexample: a response with the 2xx status code 201 makes
`execute_query` return `none`, contradicting the claim that every 2xx
response is parsed and returned. -/
theorem execute_query_201_none :
    200 ≤ 201 ∧ 201 < 300 ∧
      execute_query (HTTPResult.response 201 (0 : ℕ)) = none := by
  refine ⟨by norm_num, by norm_num, rfl⟩

/-- C2 (amended): `execute_query` returns `none` on connection failure or
timeout, returns `none` on any response whose status code differs from 200
(including other 2xx codes), and for a response with status code exactly 200
returns the parsed body as a non-null `OverpassResponseData`. -/
theorem execute_query_spec {β : Type} (s : ℕ) (b : β) :
    execute_query (HTTPResult.connectionError : HTTPResult β) = none ∧
    execute_query (HTTPResult.timeout : HTTPResult β) = none ∧
    execute_query (HTTPResult.response s b)
      = if s = 200 then some ⟨b⟩ else none := by
  refine ⟨rfl, rfl, ?_⟩
  by_cases h : s = 200 <;> simp [execute_query, h]

/-- C5: `build_query` produces, for every taxonomy entry in taxonomy
iteration order, the predicate `nwr[key]` when the entry's allowed-value set
is empty and `nwr[key~\x27v1|...|vn\x27]` (an alternation over the allowed
values) when it is nonempty, all combined as a union scoped to the tile's
bounding box and requesting full geometry (`out geom`).  The query text is a
pure function of the tile, so the same tile always yields the same text. -/
theorem build_query_spec (fmt : ℝ → String)
    (primary_tags : List (String × List String)) (x y : ℤ) :
    build_query fmt primary_tags x y
      = "[out:json][bbox:" ++ fmt (tile_bbox_from_x_y x y ZOOM_DEFAULT).1 ++ ","
        ++ fmt (tile_bbox_from_x_y x y ZOOM_DEFAULT).2.1 ++ ","
        ++ fmt (tile_bbox_from_x_y x y ZOOM_DEFAULT).2.2.1 ++ ","
        ++ fmt (tile_bbox_from_x_y x y ZOOM_DEFAULT).2.2.2
        ++ "];\n        (\n            " ++ specUnion primary_tags
        ++ "\n        );\n        out geom;" := by
  simp only [build_query]
  rw [build_predicates_eq]

/-- C3: `compute_intersections` considers exactly the LineString records
tagged `highway`, groups their coordinate points by exact coordinate pair,
and for every point whose collected id list has more than one entry emits
exactly one feature – `featureType="highway"`,
`featureValue="gd_intersection"`, a `Point` geometry at that coordinate,
`osmIds` the contributing record ids in first-seen order, and empty
properties; points with at most one collected id yield nothing, and every
emitted feature is such a point feature. -/
theorem compute_intersections_spec (records : List GeometryRecord) (p : Coord) :
    ((compute_intersections records).filter
        (fun f => decide (f.geometry = Geometry.point p))
      = if 1 < (specContributingIds records p).length
        then [mkIntersectionFeature p (specContributingIds records p)]
        else [])
    ∧ (compute_intersections records).all (fun f => f.geometry.isPoint) = true := by
  constructor
  · rw [compute_intersections, specContributingIds_eq,
      filter_point_filterMap _ _ (nodup_keysOf_point_to_osm_ids records)]
  · exact all_isPoint_filterMap _

/-- C4: for a record whose tags contain a key present in the taxonomy,
`item_to_soundscape_geojson` emits the feature whose type and value are the
first such tag key and its value, whose geometry is the record's geometry
unchanged, whose `osm_ids` is the one-element list of the record id, whose
properties are the record's full tag mapping, and whose type is
`"Feature"`. -/
theorem item_to_soundscape_geojson_spec (primary_tags : List (String × List String))
    (item : GeometryRecord) (k v : String)
    (hfind : item.tags.find? (fun kv => (primary_tags.map (·.1)).contains kv.1)
      = some (k, v)) :
    item_to_soundscape_geojson primary_tags item
      = some { feature_type := k
               feature_value := v
               geometry := item.geometry
               osm_ids := [item.id]
               properties := item.tags
               type := "Feature" } := by
  rw [item_to_soundscape_geojson, hfind]

/-- C4 witness: a concrete record whose second tag is the first taxonomy
tag. -/
theorem item_to_soundscape_geojson_witness :
    item_to_soundscape_geojson [("amenity", [])]
        { id := 5
          geometry := .point ((1 : ℚ), (2 : ℚ))
          tags := [("name", "cafe X"), ("amenity", "cafe")] }
      = some { feature_type := "amenity"
               feature_value := "cafe"
               geometry := .point ((1 : ℚ), (2 : ℚ))
               osm_ids := [5]
               properties := [("name", "cafe X"), ("amenity", "cafe")]
               type := "Feature" } :=
  item_to_soundscape_geojson_spec [("amenity", [])]
    { id := 5
      geometry := .point ((1 : ℚ), (2 : ℚ))
      tags := [("name", "cafe X"), ("amenity", "cafe")] }
    "amenity" "cafe" (by decide)

/-- C6: whenever the per-record transformation succeeds,
`as_soundscape_geojson` returns a `"FeatureCollection"` whose features are
exactly the per-record features followed by the intersection features, in
that order. -/
theorem as_soundscape_geojson_spec (primary_tags : List (String × List String))
    (records : List GeometryRecord) (fs : List Feature)
    (h : toFeatures primary_tags records = some fs) :
    as_soundscape_geojson primary_tags records
      = some { features := fs ++ compute_intersections records
               type := "FeatureCollection" } := by
  rw [as_soundscape_geojson, h]

/-! Concrete sample data used by the witnesses. -/

def sampleTags : List (String × List String) := [("highway", [])]

def wayA : GeometryRecord :=
  { id := 1
    geometry := .lineString [((0 : ℚ), (0 : ℚ)), ((1 : ℚ), (1 : ℚ))]
    tags := [("highway", "residential")] }

def wayB : GeometryRecord :=
  { id := 2
    geometry := .lineString [((1 : ℚ), (1 : ℚ)), ((2 : ℚ), (0 : ℚ))]
    tags := [("highway", "service")] }

def featA : Feature :=
  { feature_type := "highway"
    feature_value := "residential"
    geometry := .lineString [((0 : ℚ), (0 : ℚ)), ((1 : ℚ), (1 : ℚ))]
    osm_ids := [1]
    properties := [("highway", "residential")]
    type := "Feature" }

def featB : Feature :=
  { feature_type := "highway"
    feature_value := "service"
    geometry := .lineString [((1 : ℚ), (1 : ℚ)), ((2 : ℚ), (0 : ℚ))]
    osm_ids := [2]
    properties := [("highway", "service")]
    type := "Feature" }

/-- C6 witness: the collection computed from two concrete highway ways. -/
theorem as_soundscape_geojson_witness :
    as_soundscape_geojson sampleTags [wayA, wayB]
      = some { features := [featA, featB] ++ compute_intersections [wayA, wayB]
               type := "FeatureCollection" } :=
  as_soundscape_geojson_spec sampleTags [wayA, wayB] [featA, featB] (by decide)

/-- C7: whenever the collection is computed (the per-record features are
`fs` and the record ids are pairwise distinct, one record per OSM element),
each id occurring in an intersection feature's `osm_ids` appears as the sole
`osm_ids` entry of exactly one non-intersection (per-record) feature. -/
theorem intersection_ids_unique (primary_tags : List (String × List String))
    (records : List GeometryRecord) (fs : List Feature) (f : Feature) (i : ℤ)
    (hto : toFeatures primary_tags records = some fs)
    (hnd : (records.map (·.id)).Nodup)
    (hf : f ∈ compute_intersections records)
    (hi : i ∈ f.osm_ids) :
    (fs.filter (fun g => decide (g.osm_ids = [i]))).length = 1 := by
  obtain ⟨e, he, hfe⟩ := List.mem_filterMap.1 hf
  rw [intersectionOf] at hfe
  by_cases hlen : 1 < e.2.length
  case neg => rw [if_neg hlen] at hfe; cases hfe
  rw [if_pos hlen] at hfe
  have hosm : f.osm_ids = e.2 := by rw [← Option.some.inj hfe]
  have hvals : valsAt e.1 (point_to_osm_ids records) = e.2 :=
    valsAt_eq_of_mem _ e (nodup_keysOf_point_to_osm_ids records) he
  have hi2 : i ∈ e.2 := hosm ▸ hi
  have hi3 : i ∈ ((allPoints records).filter
      (fun x => decide (x.1 = e.1))).map (·.2) := by
    rw [← valsAt_point_to_osm_ids, hvals]
    exact hi2
  obtain ⟨x, hxmem, hx2⟩ := List.mem_map.1 hi3
  have hxall : x ∈ allPoints records := List.mem_of_mem_filter hxmem
  have hid : i ∈ records.map (·.id) :=
    hx2 ▸ snd_mem_ids_of_mem_allPoints records x hxall
  rw [filter_osm_ids_length primary_tags records fs i hto]
  exact length_filter_id_eq_one records i hnd hid

/-- C7 witness: two concrete ways crossing at `(1, 1)`. -/
theorem intersection_ids_unique_witness :
    (([featA, featB].filter (fun g => decide (g.osm_ids = [(1 : ℤ)]))).length)
      = 1 :=
  intersection_ids_unique sampleTags [wayA, wayB] [featA, featB]
    (mkIntersectionFeature ((1 : ℚ), (1 : ℚ)) [1, 2]) 1
    (by decide) (by decide) (by decide) (by decide)

/-- C8: a record carrying none of the taxonomy tag keys makes the
transformation fail as a whole (the Python `IndexError`, modelled as
`none`): no collection is produced, rather than the record being silently
skipped. -/
theorem untagged_record_is_fatal (primary_tags : List (String × List String))
    (records : List GeometryRecord) (r : GeometryRecord)
    (hr : r ∈ records)
    (hnone : r.tags.all (fun kv => !((primary_tags.map (·.1)).contains kv.1))
      = true) :
    as_soundscape_geojson primary_tags records = none := by
  have h0 : item_to_soundscape_geojson primary_tags r = none := by
    rw [item_to_soundscape_geojson]
    have hfind : r.tags.find? (fun kv => (primary_tags.map (·.1)).contains kv.1)
        = none := by
      rw [List.find?_eq_none]
      intro kv hkv
      have h1 := List.all_eq_true.1 hnone kv hkv
      simp only [Bool.not_eq_true'] at h1
      simp only [Bool.not_eq_true]
      exact h1
    rw [hfind]
  rw [as_soundscape_geojson, toFeatures_eq_none_of_mem primary_tags records r hr h0]

def untaggedRecord : GeometryRecord :=
  { id := 9
    geometry := .point ((0 : ℚ), (0 : ℚ))
    tags := [("name", "nameless place")] }

/-- C8 witness: a concrete record with no taxonomy tag key. -/
theorem untagged_record_is_fatal_witness :
    as_soundscape_geojson sampleTags [wayA, untaggedRecord] = none :=
  untagged_record_is_fatal sampleTags [wayA, untaggedRecord] untaggedRecord
    (by decide) (by decide)

/-- C10: a single closed-loop LineString way tagged `highway` (first and
last coordinate identical) makes `compute_intersections` emit an
intersection feature whose `osm_ids` lists that one record's id twice. -/
theorem single_loop_way_intersection :
    compute_intersections
        [{ id := 7
           geometry := .lineString
             [((0 : ℚ), (0 : ℚ)), ((1 : ℚ), (0 : ℚ)), ((0 : ℚ), (0 : ℚ))]
           tags := [("highway", "residential")] }]
      = [{ feature_type := "highway"
           feature_value := "gd_intersection"
           geometry := .point ((0 : ℚ), (0 : ℚ))
           osm_ids := [7, 7]
           properties := []
           type := "Feature" }] := by
  decide

end Overscape
